import Mathlib

/-!
Verification development for the runware-go-sdk client transport.

The definitions below are a shallow embedding of the Go sources:
`errors.go`, `internal/ws/client.go`, the client facade (`sendRequest`,
`waitForResponse`, `extractExpectedCount`, `PollVideoResult`,
`ImageInference`) and the batch executor (`processBatch`).
Durations are modelled as integers, Go `string` as Lean `String`,
Go pointers as `Option`, and Go errors as an explicit inductive
`GoError` mirroring sentinel identity, `fmt.Errorf` wrapping,
and the typed `APIError` / `TimeoutError` values.

The file is organised with all definitions first and all theorems at
the end.
-/

namespace Runware

/-! Section: Error model (`errors.go`) -/

/-- Embedding of `APIError` from `errors.go` (the `Timestamp` field is an
abstract integer instant; `RawResponse` is kept as a string). -/
structure APIError where
  message : String
  errorId : String
  taskUUID : String
  taskType : String
  rawResponse : String
  timestamp : Int
deriving Repr, DecidableEq

/-- Embedding of `TimeoutError` from `errors.go`. -/
structure TimeoutError where
  taskType : String
  taskUUID : String
  duration : Int
  expectedCount : Int
  receivedCount : Int
deriving Repr, DecidableEq

/-- Go error values as the transport observes them: sentinel errors made by
`errors.New` (identified by which variable holds them, since `errors.Is`
compares identity, not text), the typed `APIError` and `TimeoutError`
values, plain `fmt.Errorf` messages, and `fmt.Errorf("...: %w", inner)`
wrapping. -/
inductive GoError where
  | sentinel (tag : String)
  | apiError (e : APIError)
  | timeoutError (e : TimeoutError)
  | fmtError (msg : String)
  | wrapped (msg : String) (inner : GoError)
deriving Repr, DecidableEq

/-- The `ErrTimeout` sentinel (`errors.New("operation timed out")`). -/
def errTimeout : GoError := .sentinel "ErrTimeout"

/-- The `ErrInvalidRequest` sentinel (`errors.New("invalid request")`). -/
def errInvalidRequest : GoError := .sentinel "ErrInvalidRequest"

/-- The `ErrNotConnected` sentinel (`errors.New("client is not connected")`). -/
def errNotConnected : GoError := .sentinel "ErrNotConnected"

/-- The `context.DeadlineExceeded` sentinel from the Go standard library. -/
def ctxDeadlineExceeded : GoError := .sentinel "context.DeadlineExceeded"

/-- Models `errors.Is(err, target)` for a sentinel target: walk the `%w`
wrap chain looking for the sentinel by identity. -/
def errorsIsSentinel : GoError → String → Bool
  | .sentinel t, tag => t = tag
  | .wrapped _ inner, tag => errorsIsSentinel inner tag
  | _, _ => false

/-- Models `errors.As(err, &timeoutErr)` for `*TimeoutError`: walk the `%w`
wrap chain looking for a `TimeoutError` value. -/
def errorsAsTimeoutError : GoError → Option TimeoutError
  | .timeoutError e => some e
  | .wrapped _ inner => errorsAsTimeoutError inner
  | _ => none

/-- Models `errors.As(err, &apiErr)` for `*APIError` (`IsAPIError` in
`errors.go`). -/
def errorsAsAPIError : GoError → Option APIError
  | .apiError e => some e
  | .wrapped _ inner => errorsAsAPIError inner
  | _ => none

/-- Embedding of `IsTimeout` from `errors.go`: true when the error `Is`
the `ErrTimeout` sentinel or contains a `*TimeoutError`. -/
def IsTimeout (err : GoError) : Bool :=
  errorsIsSentinel err "ErrTimeout" || (errorsAsTimeoutError err).isSome

/-- Embedding of `IsAPIError` from `errors.go`. -/
def IsAPIError (err : GoError) : Bool :=
  (errorsAsAPIError err).isSome

/-- The retryable error-code list from `APIError.IsRetryable`. -/
def retryableErrors : List String :=
  ["rateLimitExceeded", "serviceUnavailable", "timeout", "temporaryError"]

/-- Models `strings.ToLower` (ASCII case mapping suffices for the code
points the SDK compares). -/
def stringsToLower (s : String) : String :=
  String.mk (s.data.map Char.toLower)

/-- Containment of `sub` as a contiguous sublist of `l` (Boolean form). -/
def listContainsSub (sub : List Char) : List Char → Bool
  | [] => sub.isEmpty
  | c :: rest => sub.isPrefixOf (c :: rest) || listContainsSub sub rest

/-- Models `strings.Contains(s, substr)`: `substr` occurs as a contiguous
substring of `s`. -/
def stringsContains (s sub : String) : Bool :=
  listContainsSub sub.data s.data

/-- Embedding of `(*APIError).IsRetryable` from `errors.go`: scans the
retryable code list with a case-insensitive containment test. -/
def APIError.IsRetryable (e : APIError) : Bool :=
  retryableErrors.any fun retryable =>
    stringsContains (stringsToLower e.errorId) (stringsToLower retryable)

/-- A concrete `APIError` with a given error code (other fields empty). -/
def apiErrorWithCode (code : String) : APIError :=
  { message := "", errorId := code, taskUUID := "", taskType := ""
    rawResponse := "", timestamp := 0 }

/-! Section: Expected result count (`extractExpectedCount`, client facade) -/

/-- A request as seen by `extractExpectedCount`: the outer `Option` models
whether the dynamic type implements the `models.ResultCountProvider`
capability, the inner `Option Int` models the `*int` returned by
`GetNumberResults` (Go `int` is a signed machine integer; the realistic
values here never overflow, so it is modelled as `Int`). -/
def NumberResultsView : Type := Option (Option Int)

/-- Embedding of `extractExpectedCount` from the client facade: default 1;
when the request provides a result count and the pointer is non-nil with a
positive value, use that value. -/
def extractExpectedCount (req : NumberResultsView) : Int :=
  match req with
  | none => 1
  | some nr =>
    match nr with
    | none => 1
    | some n => if n > 0 then n else 1

/-! Section: Response Waiter timeout (`waitForResponse`, client facade) -/

/-- Embedding of the timeout computation at the top of `waitForResponse`:

`timeout := c.requestTimeout; if deadline, ok := ctx.Deadline(); ok { timeout = time.Until(deadline) }`

`ctxDeadlineRemaining` is `time.Until(deadline)` for the ambient context
(`none` when the context carries no deadline). -/
def effectiveTimeout (requestTimeout : Int) (ctxDeadlineRemaining : Option Int) : Int :=
  match ctxDeadlineRemaining with
  | none => requestTimeout
  | some remaining => remaining

/-! Section: Reconnect backoff (`reconnectLoop`, `internal/ws/client.go`) -/

/-- One failed reconnect attempt in `reconnectLoop`:
`delay *= 2; if delay > c.config.MaxReconnectDelay { delay = c.config.MaxReconnectDelay }`. -/
def backoffAfterFailure (maxDelay delay : Nat) : Nat :=
  let d := delay * 2
  if d > maxDelay then maxDelay else d

/-- One successful reconnect in `reconnectLoop`: `delay = c.config.ReconnectDelay`. -/
def backoffAfterSuccess (initialDelay _delay : Nat) : Nat := initialDelay

/-- The delay held by `reconnectLoop` after `n` consecutive failed
reconnect attempts, starting from the configured initial delay. -/
def backoffAfterFailures (initialDelay maxDelay : Nat) : Nat → Nat
  | 0 => initialDelay
  | n + 1 => backoffAfterFailure maxDelay (backoffAfterFailures initialDelay maxDelay n)

/-! Section: Handler registry (`internal/ws/client.go`)

The Go registry is `map[string]ResponseHandler` under `handlersMu`.
Handlers themselves are opaque callbacks; they are modelled by numeric
identifiers so that deliveries can name which handler was invoked. -/

/-- The handler registry: association list, newest entry first (a map
update shadows earlier entries, lookup finds the newest, removal deletes
the key entirely). -/
def Registry : Type := List (String × Nat)

/-- Models map lookup `h, ok := c.handlers[uuid]`. -/
def registryLookup (reg : Registry) (uuid : String) : Option Nat :=
  (List.find? (fun p => p.1 == uuid) reg).map (fun p => p.2)

/-- Models `c.handlers[uuid] = handler`. -/
def registryRegister (reg : Registry) (uuid : String) (handler : Nat) : Registry :=
  (uuid, handler) :: reg

/-- Models `delete(c.handlers, uuid)` (`removeHandler`). -/
def registryRemove (reg : Registry) (uuid : String) : Registry :=
  List.filter (fun p => !(p.1 == uuid)) reg

/-! Section: Transport `Send` (`internal/ws/client.go`) -/

/-- An outbound request as `Send` sees it: whether its dynamic type
implements `models.TaskIdentifiable`, and the values its `GetTaskUUID` /
`GetTaskType` methods return when it does. -/
structure SendRequest where
  hasTaskIdentifiable : Bool
  taskUUID : String
  taskType : String
deriving Repr, DecidableEq

/-- The `taskUUID` string `Send` extracts: zero value `""` when the request
does not implement `models.TaskIdentifiable`. -/
def sendEffectiveTaskUUID (req : SendRequest) : String :=
  if req.hasTaskIdentifiable then req.taskUUID else ""

/-- State of the websocket client visible to `Send`: the `connected` flag,
whether `c.conn` is non-nil, whether the underlying frame write succeeds
(covering both `SetWriteDeadline` and `WriteMessage`), the handler
registry, and the frames written so far (each frame is the marshalled
single-element batch envelope `[request]`). -/
structure WSClientState where
  connected : Bool
  connPresent : Bool
  writeOk : Bool
  handlers : Registry
  wireWrites : List (List SendRequest)

/-- Embedding of `(*Client).Send` from `internal/ws/client.go`: connectivity
check, marshal as `[request]`, correlation-identifier extraction and
non-empty check, handler registration, nil-conn check, then the wire write.
Returns the Go error (if any) together with the post-call state. -/
def wsSend (st : WSClientState) (req : SendRequest) (handler : Nat) :
    Option GoError × WSClientState :=
  if !st.connected then
    (some (GoError.fmtError "not connected"), st)
  else
    let frame := [req]
    let taskUUID := sendEffectiveTaskUUID req
    if taskUUID == "" then
      (some (GoError.fmtError "request missing taskUUID"), st)
    else
      let st1 := { st with handlers := registryRegister st.handlers taskUUID handler }
      if !st.connPresent then
        (some (GoError.fmtError "not connected"), st1)
      else if !st.writeOk then
        (some (GoError.fmtError "failed to send message"), st1)
      else
        (none, { st1 with wireWrites := st1.wireWrites ++ [frame] })

/-- A concrete connected client state used to evaluate the `Send` claims:
one unrelated handler registered, nothing written yet. -/
def sampleConnectedState : WSClientState :=
  { connected := true, connPresent := true, writeOk := true,
    handlers := [("other", 3)], wireWrites := [] }

/-- A concrete request whose dynamic type implements
`models.TaskIdentifiable` but whose `TaskUUID` is empty. -/
def emptyUUIDRequest : SendRequest :=
  { hasTaskIdentifiable := true, taskUUID := "", taskType := "imageInference" }

/-! Section: Inbound message routing (`internal/ws/client.go`)

JSON values are modelled explicitly so that Go `encoding/json` unmarshal
behaviour can be mirrored: unknown object fields are ignored, absent
fields leave the zero value, `null` leaves the zero value, and a present
field of the wrong type fails the whole unmarshal. -/

/-- A JSON value. -/
inductive Json where
  | null
  | boolean (b : Bool)
  | num (n : Int)
  | str (s : String)
  | arr (items : List Json)
  | obj (fields : List (String × Json))

/-- First field with the given name in an object body. -/
def jsonLookup (fields : List (String × Json)) (name : String) : Option Json :=
  (List.find? (fun p => p.1 == name) fields).map (fun p => p.2)

/-- Result of unmarshalling one `string`-typed struct field: absent or
`null` leaves the zero value `""`, a string gives its value, any other
type is an unmarshal error (`none`). -/
def jsonStrField (fields : List (String × Json)) (name : String) : Option String :=
  match jsonLookup fields name with
  | none => some ""
  | some Json.null => some ""
  | some (Json.str s) => some s
  | some _ => none

/-- Result of unmarshalling one `*string`-typed struct field: absent or
`null` leaves `nil`, a string gives a non-nil pointer, any other type is
an unmarshal error (outer `none`). -/
def jsonOptStrField (fields : List (String × Json)) (name : String) :
    Option (Option String) :=
  match jsonLookup fields name with
  | none => some none
  | some Json.null => some none
  | some (Json.str s) => some (some s)
  | some _ => none

/-- Unmarshal of the envelope struct in `handleMessage`
(`struct { Data []json.RawMessage }`): succeeds only on a JSON object;
an absent or `null` `data` field yields the empty item list, an array
yields its items, any other `data` value fails. -/
def decodeDataEnvelope (msg : Json) : Option (List Json) :=
  match msg with
  | Json.obj fields =>
    match jsonLookup fields "data" with
    | none => some []
    | some Json.null => some []
    | some (Json.arr items) => some items
    | some _ => none
  | _ => none

/-- The flat error struct unmarshalled by `handleErrorResponse`. -/
structure WireErrorResp where
  error : String
  errorId : String
  code : String
  message : String
  taskUUID : String
  taskType : String
deriving Repr, DecidableEq

/-- Unmarshal of the flat error struct in `handleErrorResponse`. -/
def decodeWireErrorResp (msg : Json) : Option WireErrorResp :=
  match msg with
  | Json.obj fields => do
    let e ← jsonStrField fields "error"
    let eid ← jsonStrField fields "errorId"
    let code ← jsonStrField fields "code"
    let m ← jsonStrField fields "message"
    let uuid ← jsonStrField fields "taskUUID"
    let ty ← jsonStrField fields "taskType"
    pure ⟨e, eid, code, m, uuid, ty⟩
  | _ => none

/-- The lightweight header unmarshalled by `processResponseItem`
(`taskUUID`, `taskType`, `status`). -/
def decodeBaseResp (item : Json) : Option (String × String × String) :=
  match item with
  | Json.obj fields => do
    let uuid ← jsonStrField fields "taskUUID"
    let ty ← jsonStrField fields "taskType"
    let st ← jsonStrField fields "status"
    pure (uuid, ty, st)
  | _ => none

/-- Task-type constants from `models/shared_types.go`. -/
def TaskTypeImageInference : String := "imageInference"

def TaskTypeVideoInference : String := "videoInference"

def TaskTypeAudioInference : String := "audioInference"

def TaskTypePromptEnhance : String := "promptEnhance"

def TaskTypeImageCaption : String := "imageCaption"

def TaskTypeImageUpload : String := "imageUpload"

def TaskTypeUpscaleGan : String := "imageUpscale"

def TaskTypeImageBackgroundRemoval : String := "imageBackgroundRemoval"

def TaskTypeGetResponse : String := "getResponse"

/-- A decoded typed payload as handed to a callback by the router. Each
constructor corresponds to one `parse...Response` helper; the raw item is
carried in place of the full field-by-field struct, because no routing
decision in the source inspects the decoded fields (only `parseGetResponse`
does, and its discrimination fields are decoded explicitly below). -/
inductive TypedPayload where
  | imageInference (item : Json)
  | uploadImage (item : Json)
  | upscaleGan (item : Json)
  | removeBackground (item : Json)
  | enhancePrompt (item : Json)
  | imageCaption (item : Json)
  | videoInference (item : Json)
  | audioInference (item : Json)
  | getResponseVideo (item : Json)
  | getResponseAudio (item : Json)

/-- Common shape of the `parse...Response` helpers: `json.Unmarshal` into a
response struct, `nil` on failure. Unmarshalling a JSON value into a struct
succeeds exactly when the value is an object whose present fields have
compatible types; field-level compatibility is not modelled (no claim
depends on it), so success is modelled as "the item is an object". -/
def decodeStructObject (item : Json) : Option Json :=
  match item with
  | Json.obj fields => some (Json.obj fields)
  | _ => none

/-- Embedding of `parseGetResponse`: try the video response shape first and
accept it when any of `status`, `videoUUID`, `videoURL`, `thumbnailURL` is
set; otherwise try the audio shape with its corresponding fields;
otherwise `nil`. -/
def parseGetResponse (item : Json) : Option TypedPayload :=
  match item with
  | Json.obj fields =>
    let videoAttempt : Option TypedPayload := do
      let st ← jsonStrField fields "status"
      let vuuid ← jsonStrField fields "videoUUID"
      let vurl ← jsonOptStrField fields "videoURL"
      let turl ← jsonOptStrField fields "thumbnailURL"
      if st ≠ "" ∨ vuuid ≠ "" ∨ vurl ≠ none ∨ turl ≠ none then
        pure (TypedPayload.getResponseVideo (Json.obj fields))
      else none
    match videoAttempt with
    | some p => some p
    | none =>
      let audioAttempt : Option TypedPayload := do
        let st ← jsonStrField fields "status"
        let auuid ← jsonStrField fields "audioUUID"
        let aurl ← jsonOptStrField fields "audioURL"
        let ab64 ← jsonOptStrField fields "audioBase64Data"
        let auri ← jsonOptStrField fields "audioDataURI"
        if st ≠ "" ∨ auuid ≠ "" ∨ aurl ≠ none ∨ ab64 ≠ none ∨ auri ≠ none then
          pure (TypedPayload.getResponseAudio (Json.obj fields))
        else none
      audioAttempt
  | _ => none

/-- Embedding of `parseResponseByType`: the task-kind switch with one
decoder per known kind; unknown kinds fall through to `nil` (`none`). -/
def parseResponseByType (taskType : String) (item : Json) : Option TypedPayload :=
  if taskType == TaskTypeImageInference then
    (decodeStructObject item).map TypedPayload.imageInference
  else if taskType == TaskTypeImageUpload then
    (decodeStructObject item).map TypedPayload.uploadImage
  else if taskType == TaskTypeUpscaleGan then
    (decodeStructObject item).map TypedPayload.upscaleGan
  else if taskType == TaskTypeImageBackgroundRemoval then
    (decodeStructObject item).map TypedPayload.removeBackground
  else if taskType == TaskTypePromptEnhance then
    (decodeStructObject item).map TypedPayload.enhancePrompt
  else if taskType == TaskTypeImageCaption then
    (decodeStructObject item).map TypedPayload.imageCaption
  else if taskType == TaskTypeVideoInference then
    (decodeStructObject item).map TypedPayload.videoInference
  else if taskType == TaskTypeAudioInference then
    (decodeStructObject item).map TypedPayload.audioInference
  else if taskType == TaskTypeGetResponse then
    parseGetResponse item
  else
    none

/-- One callback invocation as the router performs it: `h(result, nil)`
for a routed success item (`result` may be Go `nil`, modelled `none`) or
`h(nil, err)` for a routed error. -/
inductive Delivery where
  | success (payload : Option TypedPayload)
  | failure (err : GoError)

/-- Embedding of `processResponseItem`: decode the lightweight header
(dropping the item on failure), look up the registered handler (dropping
the item when none), then invoke it with the typed parse result. The
registry is not modified here. -/
def processResponseItem (reg : Registry) (item : Json) : List (Nat × Delivery) :=
  match decodeBaseResp item with
  | none => []
  | some (uuid, ty, _status) =>
    match registryLookup reg uuid with
    | none => []
    | some h => [(h, Delivery.success (parseResponseByType ty item))]

/-- Embedding of `handleErrorResponse`: unmarshal the flat error struct;
when that succeeds and `taskUUID` is non-empty and registered, invoke the
handler with `fmt.Errorf("api error: %s", errResp.Error)` and remove the
registry entry; otherwise do nothing. -/
def handleErrorResponse (reg : Registry) (msg : Json) :
    List (Nat × Delivery) × Registry :=
  match decodeWireErrorResp msg with
  | some er =>
    if er.taskUUID ≠ "" then
      match registryLookup reg er.taskUUID with
      | some h =>
        ([(h, Delivery.failure (GoError.fmtError ("api error: " ++ er.error)))],
          registryRemove reg er.taskUUID)
      | none => ([], reg)
    else ([], reg)
  | none => ([], reg)

/-- Embedding of `handleMessage`: first try to unmarshal the `data`
envelope; on success route every item through `processResponseItem`; only
when that unmarshal fails is the frame handed to `handleErrorResponse`. -/
def handleMessage (reg : Registry) (msg : Json) :
    List (Nat × Delivery) × Registry :=
  match decodeDataEnvelope msg with
  | some items => (items.flatMap (processResponseItem reg), reg)
  | none => handleErrorResponse reg msg

/-! Section: Single-result completion and the typed wrapper (`client facade`) -/

/-- Result of running a Go statement sequence that can also panic. -/
inductive GoEval (α : Type) where
  | ok (a : α)
  | err (e : GoError)
  | panics (msg : String)

/-- The single-result path of `createResponseHandler` plus
`waitForSingleResponse` for the first delivery: an error delivery goes to
`errChan` and is returned as the error; a success delivery (payload may be
Go `nil`) goes to `respChan` and is returned with a `nil` error. -/
def singleResponseOutcome (d : Delivery) : Except GoError (Option TypedPayload) :=
  match d with
  | Delivery.failure e => Except.error e
  | Delivery.success p => Except.ok p

/-- The unchecked type assertion `result.(*models.ImageInferenceResponse)`
in `ImageInference`: panics on a `nil` interface value and on a different
dynamic type. -/
def assertImageInferenceResponse : Option TypedPayload → GoEval Json
  | none => GoEval.panics "interface conversion on nil interface value"
  | some (TypedPayload.imageInference item) => GoEval.ok item
  | some _ => GoEval.panics "interface conversion to wrong dynamic type"

/-- What `ImageInference` does with the value `sendRequest` produces for a
delivery: propagate an error, otherwise run the unchecked type assertion
on the (possibly `nil`) result. -/
def imageInferenceComplete (d : Delivery) : GoEval Json :=
  match singleResponseOutcome d with
  | Except.error e => GoEval.err e
  | Except.ok p => assertImageInferenceResponse p

/-! Section: Concrete frames used by the routing claims -/

/-- The service error frame from the claim:
`taskUUID "abc"`, `error "bad input"`, `errorId "invalidParameter"`. -/
def claimErrorFrame : Json :=
  Json.obj [("taskUUID", Json.str "abc"), ("error", Json.str "bad input"),
    ("errorId", Json.str "invalidParameter")]

/-- A registry holding one handler (id 0) for correlation id `"abc"`. -/
def claimRegistry : Registry := [("abc", 0)]

/-- A success envelope whose single item carries a registered correlation
id but an unknown task kind. -/
def unknownKindFrame : Json :=
  Json.obj [("data", Json.arr [Json.obj
    [("taskUUID", Json.str "abc"), ("taskType", Json.str "bogusKind")]])]

/-! Section: Batch executor (`processBatch`, client facade)

The Go executor spawns one goroutine per item behind a counting semaphore,
collects `batchResult{index, resp, err}` values from a channel, then
assembles the output slice by original index. The nondeterministic channel
arrival order is modelled by an explicit `order` list of item indices
(completion order); the Go scheduler guarantees only that every spawned
item eventually delivers exactly one result, i.e. `order` is a permutation
of `0..n-1`. -/

/-- Embedding of the concurrency-bound computation in `processBatch`:
`maxParallel := runtime.GOMAXPROCS(0) * 4; if maxParallel < 8 { maxParallel = 8 };
if len(requests) < maxParallel { maxParallel = len(requests) }`. -/
def maxParallel (gomaxprocs n : Nat) : Nat :=
  let mp := gomaxprocs * 4
  let mp2 := if mp < 8 then 8 else mp
  if n < mp2 then n else mp2

/-- Semaphore events of the worker pool: a worker acquiring a slot
(`sem <- struct{}{}`) and releasing it (`<-sem`). -/
inductive SemEvent where
  | acquire
  | release
deriving Repr, DecidableEq

/-- Running a semaphore-event trace against a buffered channel of capacity
`cap` starting from `cur` held slots: a send blocks (trace invalid,
`none`) when `cap` slots are held, a receive is only possible when a slot
is held. Returns the number of slots held at the end. -/
def semRun (cap : Nat) : Nat → List SemEvent → Option Nat
  | cur, [] => some cur
  | cur, SemEvent.acquire :: rest =>
    if cur < cap then semRun cap (cur + 1) rest else none
  | cur, SemEvent.release :: rest =>
    if 0 < cur then semRun cap (cur - 1) rest else none

/-- A trace the Go channel semaphore can actually execute from empty. -/
def SemValidTrace (cap : Nat) (tr : List SemEvent) : Prop :=
  (semRun cap 0 tr).isSome = true

/-- One channel receive in the collection loop of `processBatch`:
`responses[r.index] = r.resp` on success, or appending
`fmt.Errorf("request %d: %w", r.index, r.err)` on failure. -/
def batchStep {Resp : Type} (f : Nat → Except GoError Resp)
    (acc : List Resp × List (Nat × GoError)) (idx : Nat) :
    List Resp × List (Nat × GoError) :=
  match f idx with
  | Except.ok r => (acc.1.set idx r, acc.2)
  | Except.error e => (acc.1, acc.2 ++ [(idx, e)])

/-- The collection phase of `processBatch`: start from
`make([]Resp, n)` (zero values) and drain the results channel in
completion order. The second component is the aggregated error list, each
entry carrying the failing original index and its underlying cause (Go
renders it as `"batch errors: [request %d: %w, ...]"`). -/
def processBatchCollect {Resp : Type} (zero : Resp) (n : Nat)
    (f : Nat → Except GoError Resp) (order : List Nat) :
    List Resp × List (Nat × GoError) :=
  order.foldl (batchStep f) (List.replicate n zero, [])

/-- Embedding of `processBatch`: an empty input is rejected with
`ErrInvalidRequest`; otherwise the collected slice and aggregated error
list are returned (an empty error list corresponds to `err == nil`). -/
def processBatch {Resp : Type} (zero : Resp) (n : Nat)
    (f : Nat → Except GoError Resp) (order : List Nat) :
    Except GoError (List Resp × List (Nat × GoError)) :=
  if n = 0 then Except.error errInvalidRequest
  else Except.ok (processBatchCollect zero n f order)

/-! Section: Async poller (`PollVideoResult`, client facade) -/

/-- Task-status constants from `models/shared_types.go`. -/
def TaskStatusProcessing : String := "processing"

def TaskStatusSuccess : String := "success"

def TaskStatusError : String := "error"

/-- What one `GetResponse` poll produces: a `*models.VideoInferenceResponse`
with its `Status` field (payload kept abstract), or some other value —
including Go `nil` — on which the type assertion in `PollVideoResult`
fails. -/
inductive PollReply where
  | videoResp (status : String) (payload : Json)
  | otherResp

/-- Outcome of poll attempt number `k` (1-indexed), as a Go
`(resp, err)` pair. -/
def PollAttempt : Type := Except GoError PollReply

/-- The distinct "polling exhausted" error produced after the attempt
budget is spent: `fmt.Errorf("polling exhausted: reached max attempts (%d)
without definitive response", maxAttempts)`. Its text names the attempt
budget. -/
def exhaustedError (maxAttempts : Nat) : GoError :=
  GoError.fmtError ("polling exhausted: reached max attempts (" ++
    toString maxAttempts ++ ") without definitive response")

/-- Embedding of the attempt loop of `PollVideoResult` (caller-context
cancellation and real-time sleeping are not modelled; a sleep-then-continue
is simply the next iteration). `attempt` is the current attempt number,
`remaining` the attempts left out of `maxAttempts`. A poll-level error
that `IsTimeout` recognises (or that is `context.DeadlineExceeded`) is
retried; any other error aborts; status `success` returns; status `error`
aborts; any other status (including empty and unknown) continues. -/
def pollVideoAux (f : Nat → PollAttempt) (maxAttempts : Nat) :
    Nat → Nat → Except GoError (String × Json)
  | _, 0 => Except.error (exhaustedError maxAttempts)
  | attempt, remaining + 1 =>
    match f attempt with
    | Except.error e =>
      if IsTimeout e = true ∨ e = ctxDeadlineExceeded then
        pollVideoAux f maxAttempts (attempt + 1) remaining
      else Except.error e
    | Except.ok PollReply.otherResp =>
      Except.error (GoError.fmtError "unexpected response type from getResponse")
    | Except.ok (PollReply.videoResp status payload) =>
      if status = TaskStatusSuccess then Except.ok (status, payload)
      else if status = TaskStatusError then
        Except.error
          (GoError.fmtError "video generation failed - check API response for details")
      else pollVideoAux f maxAttempts (attempt + 1) remaining

/-- Embedding of `PollVideoResult`: run the loop from attempt 1 with the
full budget. -/
def PollVideoResult (f : Nat → PollAttempt) (maxAttempts : Nat) :
    Except GoError (String × Json) :=
  pollVideoAux f maxAttempts 1 maxAttempts

/-- An attempt outcome that keeps the loop polling: a retryable
(timeout-classified) poll error, or a video response whose status is
neither terminal state. -/
def NonTerminalAttempt (a : PollAttempt) : Prop :=
  (∃ e, a = Except.error e ∧ (IsTimeout e = true ∨ e = ctxDeadlineExceeded)) ∨
  (∃ status payload, a = Except.ok (PollReply.videoResp status payload) ∧
    status ≠ TaskStatusSuccess ∧ status ≠ TaskStatusError)

/-! Section: Concrete instances used by witnesses -/

/-- A concrete batch handler over three items: item 1 fails, the others
succeed with `index + 10`. -/
def sampleBatchHandler : Nat → Except GoError Nat :=
  fun j => if j = 1 then Except.error (GoError.fmtError "boom") else Except.ok (j + 10)

/-- A concrete poll-attempt sequence: attempt 1 times out, attempt 2 fails
with a non-timeout error, later attempts report `processing`. -/
def samplePollAttempts : Nat → PollAttempt :=
  fun k =>
    if k = 1 then Except.error errTimeout
    else if k = 2 then Except.error (GoError.fmtError "boom")
    else Except.ok (PollReply.videoResp "processing" Json.null)

/-- A concrete poll-attempt sequence that always reports `processing`. -/
def processingForever : Nat → PollAttempt :=
  fun _ => Except.ok (PollReply.videoResp "processing" Json.null)

/-! Section: Theorems -/

/-- Claim C8: `IsRetryable` is true iff the `ErrorID` case-insensitively
contains one of the known transient codes
(rateLimitExceeded, serviceUnavailable, timeout, temporaryError); in
particular it is true for `ErrorID "rateLimitExceeded"` and false for
`ErrorID "invalidParameter"`. -/
theorem isRetryable_characterisation :
    (∀ e : APIError, e.IsRetryable = true ↔
      ∃ code ∈ retryableErrors,
        stringsContains (stringsToLower e.errorId) (stringsToLower code) = true) ∧
    (apiErrorWithCode "rateLimitExceeded").IsRetryable = true ∧
    (apiErrorWithCode "invalidParameter").IsRetryable = false := by
  refine ⟨fun e => ?_, by decide, by decide⟩
  simp [APIError.IsRetryable, List.any_eq_true]

/-- Claim C10: the expected result count is always at least 1: requests
without the result-count capability, with a nil count pointer, or with a
non-positive count all yield exactly 1, and a positive count yields
itself, so the Response Waiter never waits for zero or negatively many
results. -/
theorem extractExpectedCount_pos :
    ∀ req : NumberResultsView, 1 ≤ extractExpectedCount req ∧
      (extractExpectedCount req = 1 ∨
        ∃ n : Int, 0 < n ∧ req = some (some n) ∧ extractExpectedCount req = n) := by
  intro req
  match req with
  | none => exact ⟨le_refl 1, Or.inl rfl⟩
  | some none => exact ⟨le_refl 1, Or.inl rfl⟩
  | some (some n) =>
    by_cases h : n > 0
    · refine ⟨?_, Or.inr ⟨n, h, rfl, ?_⟩⟩ <;> simp [extractExpectedCount, h]
      omega
    · refine ⟨?_, Or.inl ?_⟩ <;> simp [extractExpectedCount, h]

/-- Claim C1, counterexample: with a configured request timeout of 10 units
and a context deadline 50 units away, the effective timeout is 50, not
`min 10 50 = 10` — the waiter does not give up after the configured
request timeout when the context deadline is farther away. -/
theorem effectiveTimeout_not_min :
    effectiveTimeout 10 (some 50) = 50 ∧ effectiveTimeout 10 (some 50) ≠ min 10 50 := by
  refine ⟨rfl, ?_⟩
  intro h
  simp [effectiveTimeout] at h

/-- Claim C1, amended: when the ambient context carries a deadline, the
effective timeout equals the time remaining until that deadline — even
when that exceeds the configured request timeout; only without a context
deadline is the configured request timeout used. -/
theorem effectiveTimeout_spec :
    ∀ requestTimeout remaining : Int,
      effectiveTimeout requestTimeout (some remaining) = remaining ∧
      effectiveTimeout requestTimeout none = requestTimeout := by
  intro requestTimeout remaining
  exact ⟨rfl, rfl⟩

theorem backoffAfterFailure_eq_min (maxDelay delay : Nat) :
    backoffAfterFailure maxDelay delay = min (delay * 2) maxDelay := by
  simp only [backoffAfterFailure]
  split <;> omega

/-- Claim C4: after `n` consecutive failed reconnect attempts the backoff
delay equals `min (initial * 2 ^ n) max` (for configurations with
`initial ≤ max`, as in the defaults 5s/60s), and one subsequent successful
reconnect resets the delay to the configured initial value. -/
theorem backoff_delay_spec (initialDelay maxDelay n : Nat)
    (h : initialDelay ≤ maxDelay) :
    backoffAfterFailures initialDelay maxDelay n = min (initialDelay * 2 ^ n) maxDelay ∧
    backoffAfterSuccess initialDelay (backoffAfterFailures initialDelay maxDelay n) =
      initialDelay := by
  refine ⟨?_, rfl⟩
  induction n with
  | zero =>
    simp only [backoffAfterFailures, pow_zero, mul_one]
    omega
  | succ n ih =>
    rw [backoffAfterFailures, ih, backoffAfterFailure_eq_min]
    have h2 : initialDelay * 2 ^ (n + 1) = initialDelay * 2 ^ n * 2 := by ring
    rw [h2]
    omega

/-- Witness for claim C4 at the default configuration (initial 5s, max 60s,
4 consecutive failures): the delay is `min (5 * 16) 60 = 60` and resets
to 5 on success. -/
theorem backoff_delay_spec_witness :
    (5 ≤ 60 ∧
      backoffAfterFailures 5 60 4 = min (5 * 2 ^ 4) 60 ∧
      backoffAfterSuccess 5 (backoffAfterFailures 5 60 4) = 5) :=
  ⟨by decide, backoff_delay_spec 5 60 4 (by decide)⟩

/-- Claim C2, evaluation at the failing input: the well-formed service
error frame `{taskUUID:"abc", error:"bad input", errorId:"invalidParameter"}`
unmarshals successfully into the `data`-envelope struct (Go ignores
unknown fields), so `handleMessage` routes zero items: the registered
handler is never invoked and the registry keeps the entry. Only the
(unreached) `handleErrorResponse` path would deliver — and even there the
error handed to the callback is a plain `fmt.Errorf` value, not an
`*APIError`, so no `IsRetryable` classification exists on it. -/
theorem errorFrame_is_swallowed :
    handleMessage claimRegistry claimErrorFrame = ([], claimRegistry) ∧
    handleErrorResponse claimRegistry claimErrorFrame =
      ([(0, Delivery.failure (GoError.fmtError "api error: bad input"))], []) ∧
    IsAPIError (GoError.fmtError "api error: bad input") = false := by
  exact ⟨rfl, rfl, rfl⟩

/-- Claim C5, counterexample: on a connected client, `Send` with an empty
correlation identifier fails with the transport's plain
`fmt.Errorf("request missing taskUUID")` error — which is not the
`ErrInvalidRequest` sentinel (`errors.Is` would not match it). -/
theorem send_missing_uuid_error_is_not_invalidRequest :
    (wsSend sampleConnectedState emptyUUIDRequest 7).1 =
      some (GoError.fmtError "request missing taskUUID") ∧
    GoError.fmtError "request missing taskUUID" ≠ errInvalidRequest ∧
    errorsIsSentinel (GoError.fmtError "request missing taskUUID")
      "ErrInvalidRequest" = false := by
  exact ⟨rfl, by decide, rfl⟩

/-- Claim C5, amended: on a connected client, `Send` on a request whose
correlation identifier is absent or empty fails fast with the transport's
"request missing taskUUID" error (not the `ErrInvalidRequest` sentinel),
returning before any handler is registered and before anything is written
to the wire: the state is unchanged. -/
theorem send_missing_uuid_fails_fast (st : WSClientState) (req : SendRequest)
    (handler : Nat) (hconn : st.connected = true)
    (huuid : sendEffectiveTaskUUID req = "") :
    wsSend st req handler =
      (some (GoError.fmtError "request missing taskUUID"), st) := by
  simp [wsSend, hconn, huuid]

/-- Witness for claim C5 at a concrete connected state and a request with
an empty `taskUUID`. -/
theorem send_missing_uuid_fails_fast_witness :
    sampleConnectedState.connected = true ∧
    sendEffectiveTaskUUID emptyUUIDRequest = "" ∧
    wsSend sampleConnectedState emptyUUIDRequest 7 =
      (some (GoError.fmtError "request missing taskUUID"), sampleConnectedState) :=
  ⟨rfl, rfl, send_missing_uuid_fails_fast sampleConnectedState emptyUUIDRequest 7 rfl rfl⟩

theorem batchStep_fst_length {Resp : Type} (f : Nat → Except GoError Resp)
    (acc : List Resp × List (Nat × GoError)) (idx : Nat) :
    ((batchStep f acc idx).1).length = acc.1.length := by
  unfold batchStep
  cases f idx <;> simp

theorem batchCollect_fst_length {Resp : Type} (f : Nat → Except GoError Resp) :
    ∀ (order : List Nat) (acc : List Resp × List (Nat × GoError)),
      ((order.foldl (batchStep f) acc).1).length = acc.1.length := by
  intro order
  induction order with
  | nil => intro acc; rfl
  | cons a rest ih =>
    intro acc
    rw [List.foldl_cons, ih, batchStep_fst_length]

theorem batchCollect_fst_getElem_of_not_mem {Resp : Type}
    (f : Nat → Except GoError Resp) (j : Nat) :
    ∀ (order : List Nat) (acc : List Resp × List (Nat × GoError)),
      j ∉ order → ((order.foldl (batchStep f) acc).1)[j]? = acc.1[j]? := by
  intro order
  induction order with
  | nil => intro acc _; rfl
  | cons a rest ih =>
    intro acc hmem
    rw [List.foldl_cons, ih _ (fun h => hmem (List.mem_cons_of_mem a h))]
    have hne : a ≠ j := fun h => hmem (h ▸ List.mem_cons_self a rest)
    unfold batchStep
    cases f a with
    | ok r => simp [List.getElem?_set_ne hne]
    | error e => rfl

theorem batchCollect_fst_getElem_err {Resp : Type}
    (f : Nat → Except GoError Resp) (j : Nat) (e : GoError)
    (hj : f j = Except.error e) :
    ∀ (order : List Nat) (acc : List Resp × List (Nat × GoError)),
      ((order.foldl (batchStep f) acc).1)[j]? = acc.1[j]? := by
  intro order
  induction order with
  | nil => intro acc; rfl
  | cons a rest ih =>
    intro acc
    rw [List.foldl_cons, ih]
    by_cases ha : a = j
    · subst ha
      unfold batchStep
      rw [hj]
    · unfold batchStep
      cases f a with
      | ok r => simp [List.getElem?_set_ne ha]
      | error e2 => rfl

theorem batchCollect_fst_getElem_ok {Resp : Type}
    (f : Nat → Except GoError Resp) (j : Nat) (r : Resp)
    (hj : f j = Except.ok r) :
    ∀ (order : List Nat) (acc : List Resp × List (Nat × GoError)),
      j ∈ order → j < acc.1.length →
      ((order.foldl (batchStep f) acc).1)[j]? = some r := by
  intro order
  induction order with
  | nil => intro acc hmem; exact absurd hmem (List.not_mem_nil j)
  | cons a rest ih =>
    intro acc hmem hlen
    rw [List.foldl_cons]
    by_cases hrest : j ∈ rest
    · exact ih _ hrest (by rw [batchStep_fst_length]; exact hlen)
    · have ha : a = j := by
        rcases List.mem_cons.mp hmem with h | h
        · exact h.symm
        · exact absurd h hrest
      subst ha
      rw [batchCollect_fst_getElem_of_not_mem f a rest _ hrest]
      unfold batchStep
      rw [hj]
      simp [List.getElem?_set_self, hlen]

theorem batchCollect_snd {Resp : Type} (f : Nat → Except GoError Resp) :
    ∀ (order : List Nat) (acc : List Resp × List (Nat × GoError)),
      (order.foldl (batchStep f) acc).2 = acc.2 ++ order.filterMap
        (fun idx => match f idx with
          | Except.error e => some (idx, e)
          | Except.ok _ => none) := by
  intro order
  induction order with
  | nil => intro acc; simp
  | cons a rest ih =>
    intro acc
    rw [List.foldl_cons, ih, List.filterMap_cons]
    unfold batchStep
    cases f a with
    | ok r => simp
    | error e => simp

theorem range_filterMap_single {β : Type} (p : Nat → Option β) (b : β) :
    ∀ (n i : Nat), i < n → p i = some b →
      (∀ j, j < n → j ≠ i → p j = none) →
      (List.range n).filterMap p = [b] := by
  intro n
  induction n with
  | zero => intro i hi; omega
  | succ n ih =>
    intro i hi hpi hnone
    rw [List.range_succ, List.filterMap_append]
    by_cases h : i < n
    · rw [ih i h hpi (fun j hj hne => hnone j (by omega) hne)]
      have hn : p n = none := hnone n (by omega) (by omega)
      simp [hn]
    · have hin : i = n := by omega
      subst hin
      have hr : (List.range i).filterMap p = [] := by
        rw [List.filterMap_eq_nil_iff]
        intro j hj
        have hj2 := List.mem_range.mp hj
        exact hnone j (by omega) (by omega)
      simp [hr, hpi]

/-- Claim C3: for a non-empty batch of `n` items where item `i` fails with
cause `e` and every other item `j` succeeds with `g j`, and for every
channel completion order (any permutation of the item indices),
`processBatch` returns a result slice of length `n` whose non-failing
positions hold the handler results in input order, whose failing position
holds the zero value, and an aggregate error list identifying exactly
index `i` with cause `e`. -/
theorem processBatch_one_failing_item {Resp : Type} (zero : Resp)
    (n i : Nat) (e : GoError) (g : Nat → Resp)
    (f : Nat → Except GoError Resp) (order : List Nat)
    (hperm : order.Perm (List.range n)) (hi : i < n)
    (hfi : f i = Except.error e)
    (hok : ∀ j, j < n → j ≠ i → f j = Except.ok (g j)) :
    processBatch zero n f order =
      Except.ok (processBatchCollect zero n f order) ∧
    ((processBatchCollect zero n f order).1).length = n ∧
    (∀ j, j < n → j ≠ i →
      ((processBatchCollect zero n f order).1)[j]? = some (g j)) ∧
    ((processBatchCollect zero n f order).1)[i]? = some zero ∧
    (processBatchCollect zero n f order).2 = [(i, e)] := by
  have hn : n ≠ 0 := by omega
  refine ⟨?_, ?_, ?_, ?_, ?_⟩
  · simp [processBatch, hn]
  · unfold processBatchCollect
    rw [batchCollect_fst_length]
    exact List.length_replicate n zero
  · intro j hj hne
    unfold processBatchCollect
    rw [batchCollect_fst_getElem_ok f j (g j) (hok j hj hne) order _
      (hperm.mem_iff.mpr (List.mem_range.mpr hj))
      (by rw [List.length_replicate]; exact hj)]
  · unfold processBatchCollect
    rw [batchCollect_fst_getElem_err f i e hfi]
    simp [List.getElem?_replicate, hi]
  · unfold processBatchCollect
    rw [batchCollect_snd]
    have hfm := (hperm.filterMap
      (fun idx => match f idx with
        | Except.error e2 => some (idx, e2)
        | Except.ok _ => none))
    rw [range_filterMap_single _ (i, e) n i hi (by rw [hfi])
      (fun j hj hne => by rw [hok j hj hne])] at hfm
    rw [List.nil_append, List.perm_singleton.mp hfm]

/-- Witness for claim C3: three items, item 1 failing, completion order
`[2, 0, 1]` (item 0 does not finish first): the slice is length 3 with
positions 0 and 2 populated, position 1 zeroed, and the aggregate error
names index 1 with its cause. -/
theorem processBatch_one_failing_item_witness :
    ([2, 0, 1] : List Nat).Perm (List.range 3) ∧ 1 < 3 ∧
    sampleBatchHandler 1 = Except.error (GoError.fmtError "boom") ∧
    (processBatch 0 3 sampleBatchHandler [2, 0, 1] =
        Except.ok (processBatchCollect 0 3 sampleBatchHandler [2, 0, 1]) ∧
      ((processBatchCollect 0 3 sampleBatchHandler [2, 0, 1]).1).length = 3 ∧
      (∀ j, j < 3 → j ≠ 1 →
        ((processBatchCollect 0 3 sampleBatchHandler [2, 0, 1]).1)[j]? =
          some (j + 10)) ∧
      ((processBatchCollect 0 3 sampleBatchHandler [2, 0, 1]).1)[1]? = some 0 ∧
      (processBatchCollect 0 3 sampleBatchHandler [2, 0, 1]).2 =
        [(1, GoError.fmtError "boom")]) :=
  ⟨by decide, by decide, rfl,
    processBatch_one_failing_item 0 3 1 (GoError.fmtError "boom")
      (fun j => j + 10) sampleBatchHandler [2, 0, 1] (by decide) (by decide) rfl
      (fun j hj hne => by
        unfold sampleBatchHandler
        rw [if_neg hne])⟩

theorem semRun_le (cap : Nat) :
    ∀ (tr : List SemEvent) (cur c : Nat), cur ≤ cap →
      semRun cap cur tr = some c → c ≤ cap := by
  intro tr
  induction tr with
  | nil =>
    intro cur c hcur h
    simp only [semRun, Option.some.injEq] at h
    omega
  | cons ev rest ih =>
    intro cur c hcur h
    cases ev with
    | acquire =>
      simp only [semRun] at h
      by_cases hlt : cur < cap
      · rw [if_pos hlt] at h
        exact ih (cur + 1) c (by omega) h
      · rw [if_neg hlt] at h
        exact absurd h (by simp)
    | release =>
      simp only [semRun] at h
      by_cases hpos : 0 < cur
      · rw [if_pos hpos] at h
        exact ih (cur - 1) c (by omega) h
      · rw [if_neg hpos] at h
        exact absurd h (by simp)

/-- Claim C6: the concurrency bound of `processBatch` equals
`min (max (4 * gomaxprocs) 8) n` — a multiple of the available
parallelism, floored at 8, never exceeding the item count — and on any
trace the capacity-`maxParallel` semaphore can execute, the number of
held slots (in-flight handler calls) never exceeds that bound. -/
theorem processBatch_concurrency_bound :
    ∀ gomaxprocs n : Nat,
      maxParallel gomaxprocs n = min (max (4 * gomaxprocs) 8) n ∧
      ∀ (tr : List SemEvent) (c : Nat),
        semRun (maxParallel gomaxprocs n) 0 tr = some c →
        c ≤ maxParallel gomaxprocs n := by
  intro gomaxprocs n
  constructor
  · simp only [maxParallel]
    split_ifs <;> omega
  · intro tr c h
    exact semRun_le (maxParallel gomaxprocs n) tr 0 c (Nat.zero_le _) h

/-- Witness for claim C6 at `GOMAXPROCS = 1` and 100 items: the bound is
`min (max 4 8) 100 = 8`, and after two acquisitions two calls are in
flight, within the bound. -/
theorem processBatch_concurrency_bound_witness :
    maxParallel 1 100 = min (max (4 * 1) 8) 100 ∧ 2 ≤ maxParallel 1 100 :=
  ⟨(processBatch_concurrency_bound 1 100).1,
    (processBatch_concurrency_bound 1 100).2
      [SemEvent.acquire, SemEvent.acquire] 2 rfl⟩

/-- Claim C7: (i) a poll attempt failing with a timeout-classified error
(or `context.DeadlineExceeded`) consumes one attempt and the loop
continues (the interval sleep is not modelled); (ii) any other poll error
aborts the whole operation immediately with that error; (iii) when every
attempt is non-terminal, the budget is exhausted and the result is the
distinct "polling exhausted" error, whose text names the attempt budget
and which the timeout classifier does not recognise and which is not the
`ErrTimeout` sentinel. -/
theorem pollVideoResult_error_policy :
    (∀ (f : Nat → PollAttempt) (maxAttempts attempt remaining : Nat) (e : GoError),
      f attempt = Except.error e → (IsTimeout e = true ∨ e = ctxDeadlineExceeded) →
      pollVideoAux f maxAttempts attempt (remaining + 1) =
        pollVideoAux f maxAttempts (attempt + 1) remaining) ∧
    (∀ (f : Nat → PollAttempt) (maxAttempts attempt remaining : Nat) (e : GoError),
      f attempt = Except.error e → IsTimeout e = false → e ≠ ctxDeadlineExceeded →
      pollVideoAux f maxAttempts attempt (remaining + 1) = Except.error e) ∧
    (∀ (f : Nat → PollAttempt) (maxAttempts : Nat),
      (∀ k, NonTerminalAttempt (f k)) →
      PollVideoResult f maxAttempts = Except.error (exhaustedError maxAttempts) ∧
      IsTimeout (exhaustedError maxAttempts) = false ∧
      exhaustedError maxAttempts ≠ errTimeout) := by
  refine ⟨?_, ?_, ?_⟩
  · intro f maxAttempts attempt remaining e hf hret
    simp [pollVideoAux, hf, hret]
  · intro f maxAttempts attempt remaining e hf ht hd
    simp [pollVideoAux, hf, ht, hd]
  · intro f maxAttempts hnt
    refine ⟨?_, rfl, fun h => GoError.noConfusion h⟩
    have main : ∀ (remaining attempt : Nat),
        pollVideoAux f maxAttempts attempt remaining =
          Except.error (exhaustedError maxAttempts) := by
      intro remaining
      induction remaining with
      | zero => intro attempt; rfl
      | succ r ih =>
        intro attempt
        rcases hnt attempt with ⟨e, he, hret⟩ | ⟨status, payload, hok, hs, he⟩
        · simp [pollVideoAux, he, hret, ih]
        · simp [pollVideoAux, hok, hs, he, ih]
    exact main maxAttempts 1

/-- Witness for claim C7: on the sample attempt sequence the timed-out
first attempt is retried, the non-timeout failure on the second attempt
aborts with that error, and an all-`processing` sequence exhausts a
2-attempt budget with the "polling exhausted" error. -/
theorem pollVideoResult_error_policy_witness :
    samplePollAttempts 1 = Except.error errTimeout ∧
    (IsTimeout errTimeout = true ∨ errTimeout = ctxDeadlineExceeded) ∧
    pollVideoAux samplePollAttempts 5 1 3 = pollVideoAux samplePollAttempts 5 2 2 ∧
    pollVideoAux samplePollAttempts 5 2 2 =
      Except.error (GoError.fmtError "boom") ∧
    (PollVideoResult processingForever 2 = Except.error (exhaustedError 2) ∧
      IsTimeout (exhaustedError 2) = false ∧
      exhaustedError 2 ≠ errTimeout) :=
  ⟨rfl, Or.inl (by decide),
    pollVideoResult_error_policy.1 samplePollAttempts 5 1 2 errTimeout rfl
      (Or.inl (by decide)),
    pollVideoResult_error_policy.2.1 samplePollAttempts 5 2 1
      (GoError.fmtError "boom") rfl (by decide) (by decide),
    pollVideoResult_error_policy.2.2 processingForever 2
      (fun _ => Or.inr ⟨"processing", Json.null, rfl, by decide, by decide⟩)⟩

/-- Claim C9: a reachable delivery on which the typed wrapper panics: a
success envelope item carrying a registered correlation id but an unknown
task kind is routed to the handler with a `nil` payload and `nil` error;
the single-result waiter returns that `nil` result with no error, and
`ImageInference`'s unchecked type assertion then panics on the nil
interface value. -/
theorem imageInference_nil_assertion_panics :
    (handleMessage claimRegistry unknownKindFrame).1 = [(0, Delivery.success none)] ∧
    imageInferenceComplete (Delivery.success none) =
      GoEval.panics "interface conversion on nil interface value" := by
  exact ⟨rfl, rfl⟩

end Runware
